import Mathlib

/-!
# Dispatch and asynchronous forwarding of `tf._FusedMatMul`

A shallow embedding of `backends/cpu/lib/ops/tf/matmul_fusion_ops.cc`.

The operation `TfFusedMatMulOp` is stateful: it asks the host for memory, reads
attributes, invokes a kernel and creates asynchronous values.  The embedding
threads an explicit `HostState` through every step.  That state holds

* a trace of the calls made to the collaborators (allocator, attribute bag,
  kernel), per collaborator and as one sequence of events, so that "how often"
  and "in which order" can be stated, and
* the store of asynchronous values (completion signals with their waiting
  continuations, and result handles).

What happens after the operation has returned (the kernel finishing its work)
is a step function on the same state, `HostState.resolveChain`.
-/

namespace tfrt

/-! ## Data model -/

/-- Modelled from the spec: the element-type tag of a tensor, a closed
enumeration of kinds.  The header declaring `DType` is not part of the source
file; the source only uses `DType::F32` and `a.dtype().kind()`. -/
inductive DType.Kind where
  | Invalid | UI8 | UI16 | UI32 | UI64 | I1 | I8 | I16 | I32 | I64
  | BF16 | F16 | F32 | F64 | Complex64 | Complex128 | String | Resource | Variant
  deriving DecidableEq, Repr

/-- Element type of a tensor: `a.dtype()`. -/
structure DType where
  kind : DType.Kind
  deriving DecidableEq, Repr

/-- Modelled from the spec: the text a `DType` is printed as when it is streamed
into an error message ("naming the offending type"). -/
def DType.name (d : DType) : String :=
  match d.kind with
  | .Invalid => "invalid"
  | .UI8 => "u8"
  | .UI16 => "u16"
  | .UI32 => "u32"
  | .UI64 => "u64"
  | .I1 => "i1"
  | .I8 => "i8"
  | .I16 => "i16"
  | .I32 => "i32"
  | .I64 => "i64"
  | .BF16 => "bf16"
  | .F16 => "f16"
  | .F32 => "f32"
  | .F64 => "f64"
  | .Complex64 => "complex64"
  | .Complex128 => "complex128"
  | .String => "str"
  | .Resource => "resource"
  | .Variant => "variant"

/-- Output descriptor `TensorMetadata`: element type and shape. -/
structure TensorMetadata where
  dtype : DType
  shape : List Nat
  deriving DecidableEq, Repr

/-- A region of host memory handed out by the allocator. -/
structure HostBuffer where
  address : Nat
  size : Nat
  deriving DecidableEq, Repr

/-- A dense tensor in host memory: its metadata and its buffer. -/
structure DenseHostTensor where
  metadata : TensorMetadata
  data : HostBuffer
  deriving DecidableEq, Repr

/-- Element type of a tensor, `t.dtype()`. -/
def DenseHostTensor.dtype (t : DenseHostTensor) : DType := t.metadata.dtype

/-- Shape of a tensor, `t.shape()`. -/
def DenseHostTensor.shape (t : DenseHostTensor) : List Nat := t.metadata.shape

/-- Modelled from the spec: the host context, of which the operation uses the
allocator ("AllocateUninitialized(descriptor) -> Tensor | AllocationFailure").
The allocator is a parameter: it answers a request with a buffer or fails. -/
structure HostContext where
  allocator : TensorMetadata → Option HostBuffer

/-- Execution context handed to the operation; `exec_ctx.host()` is `host`. -/
structure ExecutionContext where
  host : HostContext
  location : Nat

/-- Values an attribute can hold. -/
inductive AttrValue where
  | bool (b : Bool)
  | i64 (n : Int)
  | str (s : String)
  | aggregate (elements : List String)
  deriving DecidableEq, Repr

/-- An `AggregateAttr`: a structured list of values (the fused operations). -/
structure AggregateAttr where
  elements : List String
  deriving DecidableEq, Repr

/-- Attribute bag `OpAttrsRef`: a read-only mapping from name to typed value. -/
structure OpAttrsRef where
  entries : List (String × AttrValue)

/-- The types `T` an attribute can be read as with `Get<T>`.  `unset` is the
value of a variable of type `T` that no read has assigned. -/
class AttrType (T : Type) where
  ofValue : AttrValue → Option T
  unset : T

instance : AttrType Bool where
  ofValue
    | .bool b => some b
    | _ => none
  unset := false

instance : AttrType AggregateAttr where
  ofValue
    | .aggregate es => some ⟨es⟩
    | _ => none
  unset := ⟨[]⟩

/-- Modelled from the spec: `Get<T>(name) -> T | ExtractionFailure`; an
attribute of another type fails like an absent one. -/
def OpAttrsRef.Get (T : Type) [AttrType T] (attrs : OpAttrsRef) (attr_name : String) :
    Option T :=
  match attrs.entries.lookup attr_name with
  | some v => AttrType.ofValue v
  | none => none

/-- The completion signal carries no payload. -/
structure Chain where
  deriving DecidableEq, Repr

/-- State of an asynchronous value: pending, or resolved to a value or to an
error.  -/
inductive AsyncState (α : Type) where
  | unavailable
  | concrete (value : α)
  | error (message : String)
  deriving DecidableEq, Repr

/-- A reference to an asynchronous value in the host's store. -/
structure AsyncValueRef (α : Type) where
  id : Nat
  deriving DecidableEq, Repr

/-- `Expected<T>`: a value or an error message. -/
abbrev Expected (α : Type) := Except String α

/-- The arguments of one call of `cpu::FusedMatMul`, in the order of the call.
`output` is the tensor the pointer `&*output` points to. -/
structure KernelArgs where
  a : DenseHostTensor
  b : DenseHostTensor
  output : DenseHostTensor
  fusion_inputs : List DenseHostTensor
  transpose_a : Bool
  transpose_b : Bool
  fused_ops_attr : AggregateAttr
  exec_ctx : ExecutionContext

/-- Modelled from the spec: the kernel `cpu::FusedMatMul<float, ...>`, a callable
given from outside "that returns a completion signal or an error".  It answers a
call with an error, or with the state its completion signal has when the call
returns (pending, or resolved already). -/
abbrev Kernel := KernelArgs → Expected (AsyncState Chain)

/-- The continuation `ForwardValue` attaches to a completion signal: it
captures the result handle and the value to forward. -/
structure ForwardClosure where
  result : AsyncValueRef DenseHostTensor
  value : DenseHostTensor
  deriving DecidableEq, Repr

/-- A completion signal in the store: its state and the continuations waiting
for it. -/
structure ChainCell where
  state : AsyncState Chain
  waiters : List ForwardClosure

/-- What the operation does to its collaborators, one event per call: a
request to the allocator, the read of an attribute (with whether the attribute
was found with the type asked for), a call of the kernel. -/
inductive Event where
  | alloc (md : TensorMetadata)
  | attrRead (attr_name : String) (found : Bool)
  | kernelCall (args : KernelArgs)

/-- The mutable state the operation works on. -/
structure HostState where
  allocCalls : List TensorMetadata
  attrReads : List String
  kernelCalls : List KernelArgs
  events : List Event
  chains : Nat → ChainCell
  numChains : Nat
  results : Nat → AsyncState DenseHostTensor
  numResults : Nat

/-- A host on which nothing has happened yet. -/
def HostState.empty : HostState where
  allocCalls := []
  attrReads := []
  kernelCalls := []
  events := []
  chains := fun _ => ⟨.unavailable, []⟩
  numChains := 0
  results := fun _ => .unavailable
  numResults := 0

/-- Overwrite one cell of a store. -/
def setCell {β : Type} (f : Nat → β) (i : Nat) (v : β) : Nat → β :=
  fun j => if j = i then v else f j

/-! ## Collaborators of the operation -/

/-- Modelled from the spec: `DenseHostTensor::CreateUninitialized(md, host)`
requests "an uninitialized Tensor matching" the descriptor from the host's
allocator; the tensor is the descriptor together with the buffer obtained. -/
def DenseHostTensor.CreateUninitialized (md : TensorMetadata) (host : HostContext)
    (w : HostState) : Option DenseHostTensor × HostState :=
  let w1 := { w with allocCalls := w.allocCalls ++ [md],
                     events := w.events ++ [.alloc md] }
  match host.allocator md with
  | some buf => (some ⟨md, buf⟩, w1)
  | none => (none, w1)

/-- Modelled from the spec: `attrs.GetAsserting<T>(name)` reads the attribute
with `Get<T>` and hands back a plain `T`, as the source binds it.  The presence
of the attribute is asserted, not reported to the caller: a read that does not
find it is recorded as such and leaves the unset value. -/
def OpAttrsRef.GetAsserting (T : Type) [AttrType T] (attrs : OpAttrsRef)
    (attr_name : String) (w : HostState) : T × HostState :=
  let w1 := { w with attrReads := w.attrReads ++ [attr_name],
                     events := w.events ++ [.attrRead attr_name (attrs.Get T attr_name).isSome] }
  match attrs.Get T attr_name with
  | some v => (v, w1)
  | none => (AttrType.unset, w1)

/-- `MakeStringError("Unsupported dtype: ", dtype)`: the pieces are streamed
one after the other into the message. -/
def MakeStringError (msg : String) (dtype : DType) : String := msg ++ dtype.name

/-- One call of the kernel: the call is recorded, and a completion signal
returned by the kernel becomes a new cell of the store. -/
def invokeKernel (FusedMatMul : Kernel) (args : KernelArgs) (w : HostState) :
    Expected (AsyncValueRef Chain) × HostState :=
  let w1 := { w with kernelCalls := w.kernelCalls ++ [args],
                     events := w.events ++ [.kernelCall args] }
  match FusedMatMul args with
  | .error err => (.error err, w1)
  | .ok st =>
    (.ok ⟨w1.numChains⟩,
      { w1 with chains := setCell w1.chains w1.numChains ⟨st, []⟩,
                numChains := w1.numChains + 1 })

/-- Modelled from the spec: `EmitErrorAsync(exec_ctx, msg)` "materializes an
already-failed Result Handle". -/
def EmitErrorAsync (_exec_ctx : ExecutionContext) (msg : String) (w : HostState) :
    AsyncValueRef DenseHostTensor × HostState :=
  (⟨w.numResults⟩,
    { w with results := setCell w.results w.numResults (.error msg),
             numResults := w.numResults + 1 })

/-- A new result handle in the pending state. -/
def MakeUnconstructedAsyncValueRef (w : HostState) :
    AsyncValueRef DenseHostTensor × HostState :=
  (⟨w.numResults⟩,
    { w with results := setCell w.results w.numResults .unavailable,
             numResults := w.numResults + 1 })

/-- `result.SetError(e)`: a handle is assigned once. -/
def SetError (results : Nat → AsyncState DenseHostTensor) (r : AsyncValueRef DenseHostTensor)
    (e : String) : Nat → AsyncState DenseHostTensor :=
  match results r.id with
  | .unavailable => setCell results r.id (.error e)
  | _ => results

/-- `result.emplace(value)`: a handle is assigned once. -/
def emplace (results : Nat → AsyncState DenseHostTensor) (r : AsyncValueRef DenseHostTensor)
    (v : DenseHostTensor) : Nat → AsyncState DenseHostTensor :=
  match results r.id with
  | .unavailable => setCell results r.id (.concrete v)
  | _ => results

/-- The body of the continuation of `ForwardValue`, run once the signal has
the resolved state `st`: an error of the signal becomes the error of the
result, otherwise the captured value becomes the result. -/
def ForwardClosure.run (st : AsyncState Chain) (cl : ForwardClosure)
    (results : Nat → AsyncState DenseHostTensor) : Nat → AsyncState DenseHostTensor :=
  match st with
  | .error e => SetError results cl.result e
  | _ => emplace results cl.result cl.value

/-- `chain.AndThen(closure)`: the closure runs at once when the signal is
resolved already, and waits in the signal's cell otherwise. -/
def AndThen (chain : AsyncValueRef Chain) (cl : ForwardClosure) (w : HostState) : HostState :=
  match (w.chains chain.id).state with
  | .unavailable =>
    { w with chains := setCell w.chains chain.id
               ⟨.unavailable, (w.chains chain.id).waiters ++ [cl]⟩ }
  | st => { w with results := cl.run st w.results }

/-- Modelled from the spec: `ForwardValue(value, chain, host)` returns a pending
result handle and "attaches a continuation to the Completion Signal that, upon
the kernel's asynchronous completion, resolves the Result Handle with the
already-allocated output tensor, or, if the kernel signals a runtime failure,
resolves it with that error instead". -/
def ForwardValue (value : DenseHostTensor) (chain : AsyncValueRef Chain) (_host : HostContext)
    (w : HostState) : AsyncValueRef DenseHostTensor × HostState :=
  match MakeUnconstructedAsyncValueRef w with
  | (result, w1) => (result, AndThen chain ⟨result, value⟩ w1)

/-! ## The operation -/

/-- The lambda `dispatch` of `TfFusedMatMulOp`: a switch over the kind of the
element type of `a`. -/
def dispatch (FusedMatMul : Kernel) (a b output : DenseHostTensor)
    (fusion_inputs : List DenseHostTensor) (transpose_a transpose_b : Bool)
    (fused_ops_attr : AggregateAttr) (exec_ctx : ExecutionContext) (w : HostState) :
    Expected (AsyncValueRef Chain) × HostState :=
  match a.dtype.kind with
  | .F32 =>
    invokeKernel FusedMatMul
      ⟨a, b, output, fusion_inputs, transpose_a, transpose_b, fused_ops_attr, exec_ctx⟩ w
  | _ => (.error (MakeStringError "Unsupported dtype: " a.dtype), w)

/-- The operation `TfFusedMatMulOp`, statement by statement.  Every path ends
in one of the three `return` statements of the source, each with a handle. -/
def TfFusedMatMulOp (FusedMatMul : Kernel) (a b : DenseHostTensor)
    (fusion_inputs : List DenseHostTensor) (attrs : OpAttrsRef)
    (output_md : TensorMetadata) (exec_ctx : ExecutionContext) (w : HostState) :
    AsyncValueRef DenseHostTensor × HostState :=
  let host := exec_ctx.host
  match DenseHostTensor.CreateUninitialized output_md host w with
  | (none, w1) => EmitErrorAsync exec_ctx "out of memory allocating result" w1
  | (some output, w1) =>
    match attrs.GetAsserting Bool "transpose_a" w1 with
    | (transpose_a, w2) =>
      match attrs.GetAsserting Bool "transpose_b" w2 with
      | (transpose_b, w3) =>
        match attrs.GetAsserting AggregateAttr "fused_ops" w3 with
        | (fused_ops_attr, w4) =>
          match dispatch FusedMatMul a b output fusion_inputs transpose_a transpose_b
              fused_ops_attr exec_ctx w4 with
          | (.error err, w5) => EmitErrorAsync exec_ctx err w5
          | (.ok chain, w5) => ForwardValue output chain host w5

/-! ## After the operation has returned -/

/-- Run the continuations waiting for a signal that has just resolved to `st`,
in the order they were attached. -/
def runWaiters (st : AsyncState Chain) :
    List ForwardClosure → (Nat → AsyncState DenseHostTensor) → Nat → AsyncState DenseHostTensor
  | [], results => results
  | cl :: rest, results => runWaiters st rest (cl.run st results)

/-- The kernel's work behind the signal `c` finishes, without error (`none`)
or with one.  A signal that is resolved already does not change again. -/
def HostState.resolveChain (c : Nat) (outcome : Option String) (w : HostState) : HostState :=
  match (w.chains c).state with
  | .unavailable =>
    let st : AsyncState Chain :=
      match outcome with
      | none => .concrete ⟨⟩
      | some e => .error e
    { w with chains := setCell w.chains c ⟨st, []⟩,
             results := runWaiters st (w.chains c).waiters w.results }
  | _ => w

/-- A sequence of completions, oldest first. -/
def HostState.run : List (Nat × Option String) → HostState → HostState
  | [], w => w
  | (c, o) :: evs, w => HostState.run evs (w.resolveChain c o)

/-- State of a result handle. -/
def HostState.resultState (w : HostState) (h : AsyncValueRef DenseHostTensor) :
    AsyncState DenseHostTensor := w.results h.id

/-- State of a completion signal. -/
def HostState.chainState (w : HostState) (c : AsyncValueRef Chain) : AsyncState Chain :=
  (w.chains c.id).state

/-- No continuation waits to write a result handle that does not exist yet. -/
def HostState.WF (w : HostState) : Prop :=
  ∀ c cl, cl ∈ (w.chains c).waiters → cl.result.id < w.numResults

/-! ## Registration -/

/-- Flags of a registered operation. -/
inductive CpuOpFlags where
  | None
  | NoSideEffects
  | AllowsScalar
  deriving DecidableEq, Repr

/-- The type of a registered operation: what `TFRT_CPU_OP` wraps. -/
abbrev CpuOpFn :=
  DenseHostTensor → DenseHostTensor → List DenseHostTensor → OpAttrsRef →
    TensorMetadata → ExecutionContext → HostState →
      AsyncValueRef DenseHostTensor × HostState

/-- One entry of the registry. -/
structure CpuOpEntry where
  op_name : String
  dispatch_fn : CpuOpFn
  flags : CpuOpFlags
  attr_names : List String

/-- Modelled from the spec: the operation registry, a "name→implementation
table" with an entry's flag and required attribute names. -/
structure CpuOpRegistry where
  entries : List CpuOpEntry

/-- Modelled from the spec: `AddOp` appends one entry to the table. -/
def CpuOpRegistry.AddOp (r : CpuOpRegistry) (op_name : String) (fn : CpuOpFn)
    (flags : CpuOpFlags) (attr_names : List String) : CpuOpRegistry :=
  ⟨r.entries ++ [⟨op_name, fn, flags, attr_names⟩]⟩

/-- The registration function `RegisterTfMatmulFusionCpuOps`. -/
def RegisterTfMatmulFusionCpuOps (FusedMatMul : Kernel) (op_registry : CpuOpRegistry) :
    CpuOpRegistry :=
  op_registry.AddOp "tf._FusedMatMul" (TfFusedMatMulOp FusedMatMul)
    CpuOpFlags.NoSideEffects ["transpose_a", "transpose_b", "fused_ops"]

/-! ## Auxiliary definitions for the proofs -/

/-- The state a forwarded handle takes from its resolved signal. -/
def forwarded (st : AsyncState Chain) (out : DenseHostTensor) : AsyncState DenseHostTensor :=
  match st with
  | .error e => .error e
  | _ => .concrete out

/-- The value an asserting read of the attribute `attr_name` hands back. -/
def OpAttrsRef.asserted (T : Type) [AttrType T] (attrs : OpAttrsRef) (attr_name : String) : T :=
  match attrs.Get T attr_name with
  | some v => v
  | none => AttrType.unset

/-- The events of an invocation up to the dispatch: one request to the
allocator, then the reads of the three attributes. -/
def eventsToDispatch (md : TensorMetadata) (attrs : OpAttrsRef) : List Event :=
  [.alloc md,
   .attrRead "transpose_a" (attrs.Get Bool "transpose_a").isSome,
   .attrRead "transpose_b" (attrs.Get Bool "transpose_b").isSome,
   .attrRead "fused_ops" (attrs.Get AggregateAttr "fused_ops").isSome]

/-- The host state in which the dispatch runs: the allocator has been called
once and the three attributes have been read, in this order. -/
def atDispatch (w : HostState) (md : TensorMetadata) (attrs : OpAttrsRef) : HostState :=
  { w with allocCalls := w.allocCalls ++ [md],
           attrReads := w.attrReads ++ ["transpose_a"] ++ ["transpose_b"] ++ ["fused_ops"],
           events := w.events ++ eventsToDispatch md attrs }

/-- The host state right after the kernel has returned a completion signal in
the state `s0`. -/
def afterKernel (w : HostState) (md : TensorMetadata) (attrs : OpAttrsRef) (args : KernelArgs)
    (s0 : AsyncState Chain) : HostState :=
  { atDispatch w md attrs with
      kernelCalls := w.kernelCalls ++ [args],
      events := w.events ++ eventsToDispatch md attrs ++ [.kernelCall args],
      chains := setCell w.chains w.numChains ⟨s0, []⟩,
      numChains := w.numChains + 1 }

/-- The handle `h` forwards the tensor `out` on the signal `c`: while the signal
is pending the handle is pending and a continuation for it waits on that signal
(and nowhere else); once the signal is resolved the handle has taken its state
from it. -/
def Linked (w : HostState) (h c : Nat) (out : DenseHostTensor) : Prop :=
  match (w.chains c).state with
  | .unavailable =>
    w.results h = .unavailable ∧ (∃ cl ∈ (w.chains c).waiters, cl.result.id = h) ∧
      ∀ c1 cl, cl ∈ (w.chains c1).waiters → cl.result.id = h → c1 = c ∧ cl.value = out
  | st => w.results h = forwarded st out

/-- The arguments the operation calls the kernel with: the operands, the
allocated output, the fusion inputs, what the three attribute reads handed
back, and the execution context. -/
def opKernelArgs (a b out : DenseHostTensor) (fi : List DenseHostTensor) (attrs : OpAttrsRef)
    (ctx : ExecutionContext) : KernelArgs :=
  ⟨a, b, out, fi, attrs.asserted Bool "transpose_a", attrs.asserted Bool "transpose_b",
    attrs.asserted AggregateAttr "fused_ops", ctx⟩

/-! ## Inputs for the examples -/

/-- Descriptor of a 2x3 tensor of 32-bit floats. -/
def f32md : TensorMetadata := ⟨⟨.F32⟩, [2, 3]⟩

/-- A 2x3 tensor of 32-bit floats. -/
def tF32 : DenseHostTensor := ⟨f32md, ⟨0, 24⟩⟩

/-- A 2x3 tensor of 32-bit integers. -/
def tI32 : DenseHostTensor := ⟨⟨⟨.I32⟩, [2, 3]⟩, ⟨64, 24⟩⟩

/-- A host whose allocator always has memory. -/
def okCtx : ExecutionContext := ⟨⟨fun md => some ⟨128, 4 * md.shape.prod⟩⟩, 0⟩

/-- A host that is out of memory. -/
def oomCtx : ExecutionContext := ⟨⟨fun _ => none⟩, 0⟩

/-- The bag of the concrete scenario: `transpose_a=false`, `transpose_b=true`,
no fused operations. -/
def goodAttrs : OpAttrsRef :=
  ⟨[("transpose_a", .bool false), ("transpose_b", .bool true), ("fused_ops", .aggregate [])]⟩

/-- An empty bag. -/
def noAttrs : OpAttrsRef := ⟨[]⟩

/-- A kernel whose completion signal is pending when the call returns. -/
def pendingKernel : Kernel := fun _ => .ok .unavailable

/-- A kernel that refuses every call. -/
def failKernel : Kernel := fun _ => .error "shape mismatch"

/-! # Theorems -/

/-! ## Stores and continuations -/

theorem setCell_same {β : Type} (f : Nat → β) (i : Nat) (v : β) : setCell f i v i = v := by
  simp [setCell]

theorem setCell_other {β : Type} (f : Nat → β) (i j : Nat) (v : β) (h : j ≠ i) :
    setCell f i v j = f j := by
  simp [setCell, h]

theorem SetError_other (results : Nat → AsyncState DenseHostTensor)
    (r : AsyncValueRef DenseHostTensor) (e : String) (h : Nat) (hne : r.id ≠ h) :
    SetError results r e h = results h := by
  have hne2 : h ≠ r.id := fun e => hne e.symm
  unfold SetError
  cases hr : results r.id <;> simp [setCell_other, hne2]

theorem emplace_other (results : Nat → AsyncState DenseHostTensor)
    (r : AsyncValueRef DenseHostTensor) (v : DenseHostTensor) (h : Nat) (hne : r.id ≠ h) :
    emplace results r v h = results h := by
  have hne2 : h ≠ r.id := fun e => hne e.symm
  unfold emplace
  cases hr : results r.id <;> simp [setCell_other, hne2]

theorem SetError_resolved (results : Nat → AsyncState DenseHostTensor)
    (r : AsyncValueRef DenseHostTensor) (e : String)
    (hres : results r.id ≠ .unavailable) : SetError results r e = results := by
  unfold SetError
  cases hr : results r.id <;> simp_all

theorem emplace_resolved (results : Nat → AsyncState DenseHostTensor)
    (r : AsyncValueRef DenseHostTensor) (v : DenseHostTensor)
    (hres : results r.id ≠ .unavailable) : emplace results r v = results := by
  unfold emplace
  cases hr : results r.id <;> simp_all

/-- A continuation does not touch a handle it does not capture. -/
theorem closure_run_other (st : AsyncState Chain) (cl : ForwardClosure)
    (results : Nat → AsyncState DenseHostTensor) (h : Nat) (hne : cl.result.id ≠ h) :
    cl.run st results h = results h := by
  cases st <;> simp only [ForwardClosure.run]
  · exact emplace_other _ _ _ _ hne
  · exact emplace_other _ _ _ _ hne
  · exact SetError_other _ _ _ _ hne

/-- Single assignment: a continuation does not change a resolved handle. -/
theorem closure_run_resolved (st : AsyncState Chain) (cl : ForwardClosure)
    (results : Nat → AsyncState DenseHostTensor) (h : Nat)
    (hres : results h ≠ .unavailable) : cl.run st results h = results h := by
  by_cases hne : cl.result.id = h
  · subst hne
    cases st <;> simp only [ForwardClosure.run]
    · rw [emplace_resolved _ _ _ hres]
    · rw [emplace_resolved _ _ _ hres]
    · rw [SetError_resolved _ _ _ hres]
  · exact closure_run_other st cl results h hne

/-- What a continuation writes into the pending handle it captures. -/
theorem closure_run_target (st : AsyncState Chain) (cl : ForwardClosure)
    (results : Nat → AsyncState DenseHostTensor)
    (hres : results cl.result.id = .unavailable) :
    cl.run st results cl.result.id =
      (match st with
       | .error e => .error e
       | _ => .concrete cl.value) := by
  cases st <;> simp [ForwardClosure.run, SetError, emplace, hres, setCell_same]

theorem runWaiters_resolved (st : AsyncState Chain) (ws : List ForwardClosure)
    (results : Nat → AsyncState DenseHostTensor) (h : Nat)
    (hres : results h ≠ .unavailable) : runWaiters st ws results h = results h := by
  induction ws generalizing results with
  | nil => rfl
  | cons cl rest ih =>
    simp only [runWaiters]
    have h1 := closure_run_resolved st cl results h hres
    rw [ih (cl.run st results) (by rw [h1]; exact hres), h1]

theorem runWaiters_other (st : AsyncState Chain) (ws : List ForwardClosure)
    (results : Nat → AsyncState DenseHostTensor) (h : Nat)
    (hne : ∀ cl ∈ ws, cl.result.id ≠ h) : runWaiters st ws results h = results h := by
  induction ws generalizing results with
  | nil => rfl
  | cons cl rest ih =>
    simp only [runWaiters]
    rw [ih (cl.run st results) (fun c hc => hne c (List.mem_cons_of_mem _ hc)),
      closure_run_other st cl results h (hne cl (List.mem_cons_self _ _))]

theorem forwarded_ne_unavailable (st : AsyncState Chain) (out : DenseHostTensor) :
    forwarded st out ≠ .unavailable := by
  cases st <;> simp [forwarded]

theorem runWaiters_target (st : AsyncState Chain) (ws : List ForwardClosure)
    (results : Nat → AsyncState DenseHostTensor) (h : Nat) (out : DenseHostTensor)
    (hres : results h = .unavailable)
    (hex : ∃ cl ∈ ws, cl.result.id = h)
    (hval : ∀ cl ∈ ws, cl.result.id = h → cl.value = out) :
    runWaiters st ws results h = forwarded st out := by
  induction ws generalizing results with
  | nil => obtain ⟨cl, hcl, _⟩ := hex; cases hcl
  | cons cl rest ih =>
    simp only [runWaiters]
    by_cases hid : cl.result.id = h
    · have hv : cl.value = out := hval cl (List.mem_cons_self _ _) hid
      have h1 : cl.run st results h = forwarded st out := by
        have := closure_run_target st cl results (by rw [hid]; exact hres)
        rw [hid, hv] at this
        rw [this]
        cases st <;> rfl
      rw [runWaiters_resolved st rest _ h (by rw [h1]; exact forwarded_ne_unavailable st out), h1]
    · have h1 := closure_run_other st cl results h hid
      apply ih
      · rw [h1]; exact hres
      · obtain ⟨c, hc, hcid⟩ := hex
        rcases List.mem_cons.mp hc with rfl | hc
        · exact absurd hcid hid
        · exact ⟨c, hc, hcid⟩
      · exact fun c hc => hval c (List.mem_cons_of_mem _ hc)

/-! ## Completions -/

theorem run_append (evs1 evs2 : List (Nat × Option String)) (w : HostState) :
    HostState.run (evs1 ++ evs2) w = HostState.run evs2 (HostState.run evs1 w) := by
  induction evs1 generalizing w with
  | nil => rfl
  | cons ev rest ih =>
    obtain ⟨c, o⟩ := ev
    show HostState.run (rest ++ evs2) (w.resolveChain c o) = _
    exact ih _

/-- A resolved handle never changes again. -/
theorem resolveChain_result_stable (w : HostState) (c : Nat) (o : Option String) (h : Nat)
    (hres : w.results h ≠ .unavailable) : (w.resolveChain c o).results h = w.results h := by
  unfold HostState.resolveChain
  split
  · exact runWaiters_resolved _ _ _ h hres
  · rfl

theorem run_result_stable (evs : List (Nat × Option String)) (w : HostState) (h : Nat)
    (hres : w.results h ≠ .unavailable) : (HostState.run evs w).results h = w.results h := by
  induction evs generalizing w with
  | nil => rfl
  | cons ev rest ih =>
    obtain ⟨c, o⟩ := ev
    simp only [HostState.run]
    have h1 := resolveChain_result_stable w c o h hres
    rw [ih (w.resolveChain c o) (by rw [h1]; exact hres), h1]

/-- A resolved signal never changes again. -/
theorem resolveChain_chain_stable (w : HostState) (c : Nat) (o : Option String) (c0 : Nat)
    (hres : (w.chains c0).state ≠ .unavailable) :
    ((w.resolveChain c o).chains c0).state = (w.chains c0).state := by
  unfold HostState.resolveChain
  split
  · rename_i hu
    have hne : c0 ≠ c := by
      intro e; subst e; exact hres hu
    simp [setCell_other, hne]
  · rfl

theorem run_chain_stable (evs : List (Nat × Option String)) (w : HostState) (c0 : Nat)
    (hres : (w.chains c0).state ≠ .unavailable) :
    ((HostState.run evs w).chains c0).state = (w.chains c0).state := by
  induction evs generalizing w with
  | nil => rfl
  | cons ev rest ih =>
    obtain ⟨c, o⟩ := ev
    simp only [HostState.run]
    have h1 := resolveChain_chain_stable w c o c0 hres
    rw [ih (w.resolveChain c o) (by rw [h1]; exact hres), h1]

/-- Completions call neither the allocator, nor the attribute bag, nor the
kernel. -/
theorem run_trace (evs : List (Nat × Option String)) (w : HostState) :
    (HostState.run evs w).allocCalls = w.allocCalls ∧
    (HostState.run evs w).attrReads = w.attrReads ∧
    (HostState.run evs w).kernelCalls = w.kernelCalls := by
  induction evs generalizing w with
  | nil => exact ⟨rfl, rfl, rfl⟩
  | cons ev rest ih =>
    obtain ⟨c, o⟩ := ev
    simp only [HostState.run]
    have h1 : (w.resolveChain c o).allocCalls = w.allocCalls ∧
        (w.resolveChain c o).attrReads = w.attrReads ∧
        (w.resolveChain c o).kernelCalls = w.kernelCalls := by
      unfold HostState.resolveChain
      split <;> exact ⟨rfl, rfl, rfl⟩
    obtain ⟨i1, i2, i3⟩ := ih (w.resolveChain c o)
    exact ⟨i1.trans h1.1, i2.trans h1.2.1, i3.trans h1.2.2⟩

/-- Completions add no event. -/
theorem run_events (evs : List (Nat × Option String)) (w : HostState) :
    (HostState.run evs w).events = w.events := by
  induction evs generalizing w with
  | nil => rfl
  | cons ev rest ih =>
    obtain ⟨c, o⟩ := ev
    simp only [HostState.run]
    rw [ih (w.resolveChain c o)]
    unfold HostState.resolveChain
    split <;> rfl

/-! ## The paths through the operation -/

theorem dispatch_F32 (K : Kernel) (a b out : DenseHostTensor) (fi : List DenseHostTensor)
    (ta tb : Bool) (fo : AggregateAttr) (ctx : ExecutionContext) (w : HostState)
    (hk : a.dtype.kind = DType.Kind.F32) :
    dispatch K a b out fi ta tb fo ctx w = invokeKernel K ⟨a, b, out, fi, ta, tb, fo, ctx⟩ w := by
  simp [dispatch, hk]

theorem dispatch_unsupported (K : Kernel) (a b out : DenseHostTensor)
    (fi : List DenseHostTensor) (ta tb : Bool) (fo : AggregateAttr) (ctx : ExecutionContext)
    (w : HostState) (hk : a.dtype.kind ≠ DType.Kind.F32) :
    dispatch K a b out fi ta tb fo ctx w =
      (.error (MakeStringError "Unsupported dtype: " a.dtype), w) := by
  unfold dispatch
  cases hkind : a.dtype.kind <;> first | rfl | exact absurd hkind hk

theorem asserted_of_some (T : Type) [AttrType T] (attrs : OpAttrsRef) (attr_name : String)
    (v : T) (h : attrs.Get T attr_name = some v) : attrs.asserted T attr_name = v := by
  simp [OpAttrsRef.asserted, h]

theorem GetAsserting_eq (T : Type) [AttrType T] (attrs : OpAttrsRef) (attr_name : String)
    (w : HostState) :
    attrs.GetAsserting T attr_name w =
      (attrs.asserted T attr_name,
        { w with attrReads := w.attrReads ++ [attr_name],
                 events := w.events ++
                   [.attrRead attr_name (attrs.Get T attr_name).isSome] }) := by
  unfold OpAttrsRef.GetAsserting OpAttrsRef.asserted
  cases attrs.Get T attr_name <;> rfl

/-- The operation when the allocation fails. -/
theorem op_alloc_failed (K : Kernel) (a b : DenseHostTensor) (fi : List DenseHostTensor)
    (attrs : OpAttrsRef) (md : TensorMetadata) (ctx : ExecutionContext) (w : HostState)
    (halloc : ctx.host.allocator md = none) :
    TfFusedMatMulOp K a b fi attrs md ctx w =
      (⟨w.numResults⟩,
        { w with allocCalls := w.allocCalls ++ [md],
                 events := w.events ++ [.alloc md],
                 results := setCell w.results w.numResults
                   (.error "out of memory allocating result"),
                 numResults := w.numResults + 1 }) := by
  simp [TfFusedMatMulOp, DenseHostTensor.CreateUninitialized, halloc, EmitErrorAsync]

/-- The operation up to the dispatch, when the allocation succeeds: the three
attributes are read one after the other and the dispatch runs on what the reads
handed back. -/
theorem op_reaches_dispatch (K : Kernel) (a b : DenseHostTensor) (fi : List DenseHostTensor)
    (attrs : OpAttrsRef) (md : TensorMetadata) (ctx : ExecutionContext) (w : HostState)
    (buf : HostBuffer)
    (halloc : ctx.host.allocator md = some buf) :
    TfFusedMatMulOp K a b fi attrs md ctx w =
      (match dispatch K a b ⟨md, buf⟩ fi (attrs.asserted Bool "transpose_a")
          (attrs.asserted Bool "transpose_b") (attrs.asserted AggregateAttr "fused_ops")
          ctx (atDispatch w md attrs) with
       | (.error err, w5) => EmitErrorAsync ctx err w5
       | (.ok chain, w5) => ForwardValue ⟨md, buf⟩ chain ctx.host w5) := by
  simp only [TfFusedMatMulOp, DenseHostTensor.CreateUninitialized, halloc, GetAsserting_eq,
    atDispatch, eventsToDispatch, List.append_assoc, List.singleton_append, List.cons_append,
    List.nil_append]

/-- The operation when the element type of `a` is not supported. -/
theorem op_unsupported (K : Kernel) (a b : DenseHostTensor) (fi : List DenseHostTensor)
    (attrs : OpAttrsRef) (md : TensorMetadata) (ctx : ExecutionContext) (w : HostState)
    (buf : HostBuffer)
    (halloc : ctx.host.allocator md = some buf)
    (hk : a.dtype.kind ≠ DType.Kind.F32) :
    TfFusedMatMulOp K a b fi attrs md ctx w =
      (⟨w.numResults⟩,
        { atDispatch w md attrs with
            results := setCell w.results w.numResults
              (.error (MakeStringError "Unsupported dtype: " a.dtype)),
            numResults := w.numResults + 1 }) := by
  rw [op_reaches_dispatch K a b fi attrs md ctx w buf halloc,
    dispatch_unsupported K a b ⟨md, buf⟩ fi _ _ _ ctx _ hk]
  rfl

/-- The operation when the kernel refuses the call. -/
theorem op_kernel_error_any (K : Kernel) (a b : DenseHostTensor) (fi : List DenseHostTensor)
    (attrs : OpAttrsRef) (md : TensorMetadata) (ctx : ExecutionContext) (w : HostState)
    (buf : HostBuffer) (err : String)
    (halloc : ctx.host.allocator md = some buf)
    (hk : a.dtype.kind = DType.Kind.F32)
    (hK : K ⟨a, b, ⟨md, buf⟩, fi, attrs.asserted Bool "transpose_a",
      attrs.asserted Bool "transpose_b", attrs.asserted AggregateAttr "fused_ops", ctx⟩ =
        .error err) :
    TfFusedMatMulOp K a b fi attrs md ctx w =
      (⟨w.numResults⟩,
        { atDispatch w md attrs with
            kernelCalls := w.kernelCalls ++ [⟨a, b, ⟨md, buf⟩, fi,
              attrs.asserted Bool "transpose_a", attrs.asserted Bool "transpose_b",
              attrs.asserted AggregateAttr "fused_ops", ctx⟩],
            events := w.events ++ eventsToDispatch md attrs ++ [.kernelCall ⟨a, b, ⟨md, buf⟩, fi,
              attrs.asserted Bool "transpose_a", attrs.asserted Bool "transpose_b",
              attrs.asserted AggregateAttr "fused_ops", ctx⟩],
            results := setCell w.results w.numResults (.error err),
            numResults := w.numResults + 1 }) := by
  rw [op_reaches_dispatch K a b fi attrs md ctx w buf halloc,
    dispatch_F32 K a b ⟨md, buf⟩ fi _ _ _ ctx _ hk]
  simp only [invokeKernel, hK]
  rfl

/-- The operation when the kernel returns a completion signal. -/
theorem op_kernel_ok_any (K : Kernel) (a b : DenseHostTensor) (fi : List DenseHostTensor)
    (attrs : OpAttrsRef) (md : TensorMetadata) (ctx : ExecutionContext) (w : HostState)
    (buf : HostBuffer) (s0 : AsyncState Chain)
    (halloc : ctx.host.allocator md = some buf)
    (hk : a.dtype.kind = DType.Kind.F32)
    (hK : K ⟨a, b, ⟨md, buf⟩, fi, attrs.asserted Bool "transpose_a",
      attrs.asserted Bool "transpose_b", attrs.asserted AggregateAttr "fused_ops", ctx⟩ =
        .ok s0) :
    TfFusedMatMulOp K a b fi attrs md ctx w =
      (⟨w.numResults⟩,
        (ForwardValue ⟨md, buf⟩ ⟨w.numChains⟩ ctx.host
          (afterKernel w md attrs ⟨a, b, ⟨md, buf⟩, fi, attrs.asserted Bool "transpose_a",
            attrs.asserted Bool "transpose_b", attrs.asserted AggregateAttr "fused_ops", ctx⟩
            s0)).2) := by
  rw [op_reaches_dispatch K a b fi attrs md ctx w buf halloc,
    dispatch_F32 K a b ⟨md, buf⟩ fi _ _ _ ctx _ hk]
  simp only [invokeKernel, hK]
  rfl

/-- The operation when the kernel refuses the call, with the attributes
present. -/
theorem op_kernel_error (K : Kernel) (a b : DenseHostTensor) (fi : List DenseHostTensor)
    (attrs : OpAttrsRef) (md : TensorMetadata) (ctx : ExecutionContext) (w : HostState)
    (buf : HostBuffer) (ta tb : Bool) (fo : AggregateAttr) (err : String)
    (halloc : ctx.host.allocator md = some buf)
    (hta : attrs.Get Bool "transpose_a" = some ta)
    (htb : attrs.Get Bool "transpose_b" = some tb)
    (hfo : attrs.Get AggregateAttr "fused_ops" = some fo)
    (hk : a.dtype.kind = DType.Kind.F32)
    (hK : K ⟨a, b, ⟨md, buf⟩, fi, ta, tb, fo, ctx⟩ = .error err) :
    TfFusedMatMulOp K a b fi attrs md ctx w =
      (⟨w.numResults⟩,
        { atDispatch w md attrs with
            kernelCalls := w.kernelCalls ++ [⟨a, b, ⟨md, buf⟩, fi, ta, tb, fo, ctx⟩],
            events := w.events ++ eventsToDispatch md attrs ++
              [.kernelCall ⟨a, b, ⟨md, buf⟩, fi, ta, tb, fo, ctx⟩],
            results := setCell w.results w.numResults (.error err),
            numResults := w.numResults + 1 }) := by
  have e1 := asserted_of_some Bool attrs "transpose_a" ta hta
  have e2 := asserted_of_some Bool attrs "transpose_b" tb htb
  have e3 := asserted_of_some AggregateAttr attrs "fused_ops" fo hfo
  subst e1 e2 e3
  exact op_kernel_error_any K a b fi attrs md ctx w buf err halloc hk hK

/-- The operation when the kernel returns a completion signal, with the
attributes present. -/
theorem op_kernel_ok (K : Kernel) (a b : DenseHostTensor) (fi : List DenseHostTensor)
    (attrs : OpAttrsRef) (md : TensorMetadata) (ctx : ExecutionContext) (w : HostState)
    (buf : HostBuffer) (ta tb : Bool) (fo : AggregateAttr) (s0 : AsyncState Chain)
    (halloc : ctx.host.allocator md = some buf)
    (hta : attrs.Get Bool "transpose_a" = some ta)
    (htb : attrs.Get Bool "transpose_b" = some tb)
    (hfo : attrs.Get AggregateAttr "fused_ops" = some fo)
    (hk : a.dtype.kind = DType.Kind.F32)
    (hK : K ⟨a, b, ⟨md, buf⟩, fi, ta, tb, fo, ctx⟩ = .ok s0) :
    TfFusedMatMulOp K a b fi attrs md ctx w =
      (⟨w.numResults⟩,
        (ForwardValue ⟨md, buf⟩ ⟨w.numChains⟩ ctx.host
          (afterKernel w md attrs ⟨a, b, ⟨md, buf⟩, fi, ta, tb, fo, ctx⟩ s0)).2) := by
  have e1 := asserted_of_some Bool attrs "transpose_a" ta hta
  have e2 := asserted_of_some Bool attrs "transpose_b" tb htb
  have e3 := asserted_of_some AggregateAttr attrs "fused_ops" fo hfo
  subst e1 e2 e3
  exact op_kernel_ok_any K a b fi attrs md ctx w buf s0 halloc hk hK

/-! ## The link between a forwarded handle and its signal -/

theorem Linked_pending (w : HostState) (h c : Nat) (out : DenseHostTensor)
    (hl : Linked w h c out) (hs : (w.chains c).state = .unavailable) :
    w.results h = .unavailable := by
  unfold Linked at hl
  rw [hs] at hl
  exact hl.1

theorem Linked_resolved (w : HostState) (h c : Nat) (out : DenseHostTensor)
    (hl : Linked w h c out) (hs : (w.chains c).state ≠ .unavailable) :
    w.results h = forwarded (w.chains c).state out := by
  unfold Linked at hl
  cases hst : (w.chains c).state with
  | unavailable => exact absurd hst hs
  | concrete v => rw [hst] at hl; exact hl
  | error e => rw [hst] at hl; exact hl

theorem Linked_of_resolved (w : HostState) (h c : Nat) (out : DenseHostTensor)
    (hs : (w.chains c).state ≠ .unavailable)
    (hr : w.results h = forwarded (w.chains c).state out) : Linked w h c out := by
  unfold Linked
  cases hst : (w.chains c).state with
  | unavailable => exact absurd hst hs
  | concrete v => rw [hst] at hr; exact hr
  | error e => rw [hst] at hr; exact hr

/-- The link survives every completion. -/
theorem Linked_resolveChain (w : HostState) (h c : Nat) (out : DenseHostTensor)
    (c1 : Nat) (o : Option String) (hl : Linked w h c out) :
    Linked (w.resolveChain c1 o) h c out := by
  cases hc1 : (w.chains c1).state with
  | concrete v => simp only [HostState.resolveChain, hc1]; exact hl
  | error e => simp only [HostState.resolveChain, hc1]; exact hl
  | unavailable =>
    simp only [HostState.resolveChain, hc1]
    generalize hst : (match o with
      | none => AsyncState.concrete (Chain.mk)
      | some e => AsyncState.error e) = st
    have hst_ne : st ≠ .unavailable := by
      cases o <;> simp at hst <;> rw [← hst] <;> simp
    by_cases hcc : c1 = c
    · subst hcc
      have hl2 := hl
      unfold Linked at hl2
      rw [hc1] at hl2
      obtain ⟨hres, hex, huniq⟩ := hl2
      apply Linked_of_resolved
      · simp only [setCell_same]; exact hst_ne
      · simp only [setCell_same]
        exact runWaiters_target st _ _ h out hres hex (fun cl hcl hid => (huniq c1 cl hcl hid).2)
    · have hcc2 : c ≠ c1 := fun e => hcc e.symm
      cases hc : (w.chains c).state with
      | unavailable =>
        have hl2 := hl
        unfold Linked at hl2
        rw [hc] at hl2
        obtain ⟨hres, hex, huniq⟩ := hl2
        have hno : ∀ cl ∈ (w.chains c1).waiters, cl.result.id ≠ h :=
          fun cl hcl hid => hcc (huniq c1 cl hcl hid).1
        unfold Linked
        simp only [setCell_other _ _ _ _ hcc2, hc]
        refine ⟨?_, hex, ?_⟩
        · rw [runWaiters_other st _ _ h hno]; exact hres
        · intro c2 cl hcl hid
          by_cases h2 : c2 = c1
          · subst h2
            simp [setCell_same] at hcl
          · rw [setCell_other _ _ _ _ h2] at hcl
            exact huniq c2 cl hcl hid
      | concrete v =>
        have hne : (w.chains c).state ≠ .unavailable := by rw [hc]; simp
        have hr := Linked_resolved w h c out hl hne
        apply Linked_of_resolved
        · simp only [setCell_other _ _ _ _ hcc2]; exact hne
        · simp only [setCell_other _ _ _ _ hcc2]
          rw [runWaiters_resolved st _ _ h (by rw [hr]; exact forwarded_ne_unavailable _ _)]
          exact hr
      | error e =>
        have hne : (w.chains c).state ≠ .unavailable := by rw [hc]; simp
        have hr := Linked_resolved w h c out hl hne
        apply Linked_of_resolved
        · simp only [setCell_other _ _ _ _ hcc2]; exact hne
        · simp only [setCell_other _ _ _ _ hcc2]
          rw [runWaiters_resolved st _ _ h (by rw [hr]; exact forwarded_ne_unavailable _ _)]
          exact hr

theorem Linked_run (evs : List (Nat × Option String)) (w : HostState) (h c : Nat)
    (out : DenseHostTensor) (hl : Linked w h c out) : Linked (HostState.run evs w) h c out := by
  induction evs generalizing w with
  | nil => exact hl
  | cons ev rest ih =>
    obtain ⟨c1, o⟩ := ev
    exact ih _ (Linked_resolveChain w h c out c1 o hl)

/-- The handle `ForwardValue` returns is linked to the signal it was given,
when that signal is new and no continuation waits for a handle that does
not exist yet. -/
theorem ForwardValue_linked (out : DenseHostTensor) (c : Nat) (host : HostContext)
    (w : HostState) (hnew : (w.chains c).waiters = [])
    (hwf : ∀ c1 cl, cl ∈ (w.chains c1).waiters → cl.result.id < w.numResults) :
    Linked (ForwardValue out ⟨c⟩ host w).2 w.numResults c out := by
  cases hs : (w.chains c).state with
  | unavailable =>
    unfold Linked
    simp only [ForwardValue, MakeUnconstructedAsyncValueRef, AndThen, hs, setCell_same, hnew,
      List.nil_append]
    refine ⟨trivial, ⟨⟨⟨w.numResults⟩, out⟩, List.mem_singleton.mpr rfl, rfl⟩, ?_⟩
    intro c1 cl hcl hid
    by_cases h1 : c1 = c
    · subst h1
      simp only [setCell_same, List.mem_singleton] at hcl
      subst hcl
      exact ⟨rfl, rfl⟩
    · rw [setCell_other _ _ _ _ h1] at hcl
      have := hwf c1 cl hcl
      omega
  | concrete v =>
    apply Linked_of_resolved
    · simp [ForwardValue, MakeUnconstructedAsyncValueRef, AndThen, hs]
    · simp only [ForwardValue, MakeUnconstructedAsyncValueRef, AndThen, hs]
      have := closure_run_target (.concrete v) ⟨⟨w.numResults⟩, out⟩
        (setCell w.results w.numResults .unavailable) (setCell_same _ _ _)
      simpa [forwarded] using this
  | error e =>
    apply Linked_of_resolved
    · simp [ForwardValue, MakeUnconstructedAsyncValueRef, AndThen, hs]
    · simp only [ForwardValue, MakeUnconstructedAsyncValueRef, AndThen, hs]
      have := closure_run_target (.error e) ⟨⟨w.numResults⟩, out⟩
        (setCell w.results w.numResults .unavailable) (setCell_same _ _ _)
      simpa [forwarded] using this

theorem ForwardValue_trace (out : DenseHostTensor) (c : Nat) (host : HostContext)
    (w : HostState) :
    (ForwardValue out ⟨c⟩ host w).2.allocCalls = w.allocCalls ∧
    (ForwardValue out ⟨c⟩ host w).2.attrReads = w.attrReads ∧
    (ForwardValue out ⟨c⟩ host w).2.kernelCalls = w.kernelCalls ∧
    (ForwardValue out ⟨c⟩ host w).2.events = w.events := by
  cases hs : (w.chains c).state <;>
    simp [ForwardValue, MakeUnconstructedAsyncValueRef, AndThen, hs]

/-- After the operation has forwarded its output on the kernel's signal, handle
and signal are linked. -/
theorem op_linked (w : HostState) (md : TensorMetadata) (attrs : OpAttrsRef)
    (args : KernelArgs) (s0 : AsyncState Chain) (out : DenseHostTensor) (host : HostContext)
    (hwf : w.WF) :
    Linked (ForwardValue out ⟨w.numChains⟩ host (afterKernel w md attrs args s0)).2
      w.numResults w.numChains out := by
  have h := ForwardValue_linked out w.numChains host (afterKernel w md attrs args s0)
    (by simp [afterKernel, atDispatch, setCell_same])
    (by
      intro c1 cl hcl
      by_cases h1 : c1 = w.numChains
      · subst h1
        simp [afterKernel, atDispatch, setCell_same] at hcl
      · simp only [afterKernel, atDispatch, setCell_other _ _ _ _ h1] at hcl
        exact hwf c1 cl hcl)
  exact h

/-! ## Allocation and the empty host -/

theorem CreateUninitialized_none (md : TensorMetadata) (host : HostContext) (w : HostState) :
    (DenseHostTensor.CreateUninitialized md host w).1 = none ↔ host.allocator md = none := by
  unfold DenseHostTensor.CreateUninitialized
  cases host.allocator md <;> simp

theorem CreateUninitialized_some (md : TensorMetadata) (host : HostContext) (w : HostState)
    (t : DenseHostTensor) :
    (DenseHostTensor.CreateUninitialized md host w).1 = some t ↔
      ∃ buf, host.allocator md = some buf ∧ t = ⟨md, buf⟩ := by
  unfold DenseHostTensor.CreateUninitialized
  cases host.allocator md <;> simp [eq_comm]

theorem WF_empty : HostState.empty.WF := by
  intro c cl hcl
  simp [HostState.empty] at hcl

/-! ## The traces of an invocation -/

/-- What an invocation with an `F32` tensor `a` has recorded when it returns,
once the allocation has succeeded. -/
theorem op_traces_F32 (K : Kernel) (a b : DenseHostTensor) (fi : List DenseHostTensor)
    (attrs : OpAttrsRef) (md : TensorMetadata) (ctx : ExecutionContext) (w : HostState)
    (buf : HostBuffer)
    (halloc : ctx.host.allocator md = some buf)
    (hk : a.dtype.kind = DType.Kind.F32) :
    (TfFusedMatMulOp K a b fi attrs md ctx w).1 = ⟨w.numResults⟩ ∧
    (TfFusedMatMulOp K a b fi attrs md ctx w).2.kernelCalls =
      w.kernelCalls ++ [opKernelArgs a b ⟨md, buf⟩ fi attrs ctx] ∧
    (TfFusedMatMulOp K a b fi attrs md ctx w).2.attrReads =
      w.attrReads ++ ["transpose_a", "transpose_b", "fused_ops"] ∧
    (TfFusedMatMulOp K a b fi attrs md ctx w).2.allocCalls = w.allocCalls ++ [md] ∧
    (TfFusedMatMulOp K a b fi attrs md ctx w).2.events =
      w.events ++ eventsToDispatch md attrs ++
        [.kernelCall (opKernelArgs a b ⟨md, buf⟩ fi attrs ctx)] := by
  cases hK : K (opKernelArgs a b ⟨md, buf⟩ fi attrs ctx) with
  | error err =>
    rw [op_kernel_error_any K a b fi attrs md ctx w buf err halloc hk hK]
    simp [atDispatch, opKernelArgs]
  | ok s0 =>
    rw [op_kernel_ok_any K a b fi attrs md ctx w buf s0 halloc hk hK]
    obtain ⟨h1, h2, h3, h4⟩ := ForwardValue_trace ⟨md, buf⟩ w.numChains ctx.host
      (afterKernel w md attrs (opKernelArgs a b ⟨md, buf⟩ fi attrs ctx) s0)
    simp only [opKernelArgs] at h1 h2 h3 h4 ⊢
    rw [h1, h2, h3, h4]
    simp [afterKernel, atDispatch]

/-- What an invocation with a tensor `a` of another element type has recorded
when it returns, once the allocation has succeeded. -/
theorem op_traces_unsupported (K : Kernel) (a b : DenseHostTensor)
    (fi : List DenseHostTensor) (attrs : OpAttrsRef) (md : TensorMetadata)
    (ctx : ExecutionContext) (w : HostState) (buf : HostBuffer)
    (halloc : ctx.host.allocator md = some buf)
    (hk : a.dtype.kind ≠ DType.Kind.F32) :
    (TfFusedMatMulOp K a b fi attrs md ctx w).1 = ⟨w.numResults⟩ ∧
    (TfFusedMatMulOp K a b fi attrs md ctx w).2.results w.numResults =
      .error ("Unsupported dtype: " ++ a.dtype.name) ∧
    (TfFusedMatMulOp K a b fi attrs md ctx w).2.kernelCalls = w.kernelCalls ∧
    (TfFusedMatMulOp K a b fi attrs md ctx w).2.attrReads =
      w.attrReads ++ ["transpose_a", "transpose_b", "fused_ops"] ∧
    (TfFusedMatMulOp K a b fi attrs md ctx w).2.allocCalls = w.allocCalls ++ [md] ∧
    (TfFusedMatMulOp K a b fi attrs md ctx w).2.events =
      w.events ++ eventsToDispatch md attrs := by
  rw [op_unsupported K a b fi attrs md ctx w buf halloc hk]
  simp [atDispatch, setCell_same, MakeStringError]

/-! ## Allocation failure -/

/-- C2: when `DenseHostTensor::CreateUninitialized` fails, the operation returns
a handle that is resolved already, with the error "out of memory allocating
result"; it reads no attribute and never invokes the kernel, whatever the
inputs and the attributes are, and nothing that completes later changes the
handle or calls the kernel. -/
theorem alloc_failure_short_circuits (K : Kernel) (a b : DenseHostTensor)
    (fi : List DenseHostTensor) (attrs : OpAttrsRef) (md : TensorMetadata)
    (ctx : ExecutionContext) (w : HostState)
    (hfail : (DenseHostTensor.CreateUninitialized md ctx.host w).1 = none) :
    (TfFusedMatMulOp K a b fi attrs md ctx w).1 = ⟨w.numResults⟩ ∧
    (TfFusedMatMulOp K a b fi attrs md ctx w).2.resultState ⟨w.numResults⟩ =
      .error "out of memory allocating result" ∧
    (TfFusedMatMulOp K a b fi attrs md ctx w).2.kernelCalls = w.kernelCalls ∧
    (TfFusedMatMulOp K a b fi attrs md ctx w).2.attrReads = w.attrReads ∧
    (TfFusedMatMulOp K a b fi attrs md ctx w).2.numChains = w.numChains ∧
    ∀ evs : List (Nat × Option String),
      (HostState.run evs (TfFusedMatMulOp K a b fi attrs md ctx w).2).resultState
          ⟨w.numResults⟩ = .error "out of memory allocating result" ∧
      (HostState.run evs (TfFusedMatMulOp K a b fi attrs md ctx w).2).kernelCalls =
        w.kernelCalls := by
  have halloc := (CreateUninitialized_none md ctx.host w).mp hfail
  rw [op_alloc_failed K a b fi attrs md ctx w halloc]
  refine ⟨rfl, ?_, rfl, rfl, rfl, ?_⟩
  · simp [HostState.resultState, setCell_same]
  · intro evs
    constructor
    · simp only [HostState.resultState]
      rw [run_result_stable evs _ w.numResults (by simp [setCell_same])]
      simp [setCell_same]
    · rw [(run_trace evs _).2.2]

theorem alloc_failure_short_circuits_witness :
    (DenseHostTensor.CreateUninitialized f32md oomCtx.host HostState.empty).1 = none ∧
    (TfFusedMatMulOp pendingKernel tF32 tF32 [] goodAttrs f32md oomCtx HostState.empty).2.resultState
      ⟨0⟩ = .error "out of memory allocating result" ∧
    (TfFusedMatMulOp pendingKernel tF32 tF32 [] goodAttrs f32md oomCtx HostState.empty).2.kernelCalls
      = [] :=
  ⟨rfl,
    (alloc_failure_short_circuits pendingKernel tF32 tF32 [] goodAttrs f32md oomCtx
      HostState.empty rfl).2.1,
    (alloc_failure_short_circuits pendingKernel tF32 tF32 [] goodAttrs f32md oomCtx
      HostState.empty rfl).2.2.1⟩

/-! ## Unsupported element types -/

/-- C1: when the allocation of the output succeeds and the kind of the element
type of `a` is anything other than `F32`, the operation returns a handle that
is resolved with the error "Unsupported dtype: " followed by the name of the
element type of `a`, and the kernel is invoked zero times; this holds whatever
`b`, the fusion inputs and the attribute bag are, and no later completion
changes the handle or calls the kernel. -/
theorem unsupported_dtype_error (K : Kernel) (a b : DenseHostTensor)
    (fi : List DenseHostTensor) (attrs : OpAttrsRef) (md : TensorMetadata)
    (ctx : ExecutionContext) (w : HostState)
    (halloc : (DenseHostTensor.CreateUninitialized md ctx.host w).1 ≠ none)
    (hk : a.dtype.kind ≠ DType.Kind.F32) :
    (TfFusedMatMulOp K a b fi attrs md ctx w).1 = ⟨w.numResults⟩ ∧
    (TfFusedMatMulOp K a b fi attrs md ctx w).2.resultState ⟨w.numResults⟩ =
      .error ("Unsupported dtype: " ++ a.dtype.name) ∧
    (TfFusedMatMulOp K a b fi attrs md ctx w).2.kernelCalls = w.kernelCalls ∧
    ∀ evs : List (Nat × Option String),
      (HostState.run evs (TfFusedMatMulOp K a b fi attrs md ctx w).2).resultState
          ⟨w.numResults⟩ = .error ("Unsupported dtype: " ++ a.dtype.name) ∧
      (HostState.run evs (TfFusedMatMulOp K a b fi attrs md ctx w).2).kernelCalls =
        w.kernelCalls := by
  cases hbuf : ctx.host.allocator md with
  | none => exact absurd ((CreateUninitialized_none md ctx.host w).mpr hbuf) halloc
  | some buf =>
    obtain ⟨h1, h2, h3, -, -, -⟩ := op_traces_unsupported K a b fi attrs md ctx w buf hbuf hk
    refine ⟨h1, h2, h3, ?_⟩
    intro evs
    constructor
    · simp only [HostState.resultState]
      rw [run_result_stable evs _ w.numResults (by rw [h2]; simp), h2]
    · rw [(run_trace evs _).2.2, h3]

theorem unsupported_dtype_error_witness :
    (TfFusedMatMulOp pendingKernel tI32 tF32 [] goodAttrs f32md okCtx HostState.empty).1 =
      ⟨0⟩ ∧
    (TfFusedMatMulOp pendingKernel tI32 tF32 [] goodAttrs f32md okCtx HostState.empty).2.resultState
      ⟨0⟩ = .error ("Unsupported dtype: " ++ "i32") ∧
    (TfFusedMatMulOp pendingKernel tI32 tF32 [] goodAttrs f32md okCtx HostState.empty).2.kernelCalls
      = [] :=
  ⟨(unsupported_dtype_error pendingKernel tI32 tF32 [] goodAttrs f32md okCtx HostState.empty
      (by decide) (by decide)).1,
    (unsupported_dtype_error pendingKernel tI32 tF32 [] goodAttrs f32md okCtx HostState.empty
      (by decide) (by decide)).2.1,
    (unsupported_dtype_error pendingKernel tI32 tF32 [] goodAttrs f32md okCtx HostState.empty
      (by decide) (by decide)).2.2.1⟩

/-! ## Missing attributes -/

/-- The handle of the operation follows the kernel's completion signal at
every time after the operation has returned. -/
theorem op_handle_linked (K : Kernel) (a b : DenseHostTensor) (fi : List DenseHostTensor)
    (attrs : OpAttrsRef) (md : TensorMetadata) (ctx : ExecutionContext) (w : HostState)
    (buf : HostBuffer) (ta tb : Bool) (fo : AggregateAttr) (s0 : AsyncState Chain)
    (hwf : w.WF)
    (halloc : ctx.host.allocator md = some buf)
    (hta : attrs.Get Bool "transpose_a" = some ta)
    (htb : attrs.Get Bool "transpose_b" = some tb)
    (hfo : attrs.Get AggregateAttr "fused_ops" = some fo)
    (hk : a.dtype.kind = DType.Kind.F32)
    (hK : K ⟨a, b, ⟨md, buf⟩, fi, ta, tb, fo, ctx⟩ = .ok s0)
    (evs : List (Nat × Option String)) :
    Linked (HostState.run evs (TfFusedMatMulOp K a b fi attrs md ctx w).2)
      w.numResults w.numChains ⟨md, buf⟩ := by
  rw [op_kernel_ok K a b fi attrs md ctx w buf ta tb fo s0 halloc hta htb hfo hk hK]
  exact Linked_run evs _ _ _ _ (op_linked w md attrs _ s0 ⟨md, buf⟩ ctx.host hwf)

/-- C4: `a` has the element type `F32`, the three required attributes are present
with their types, the allocation succeeds and the kernel returns a completion
signal.  Once that signal has completed without error, the handle the operation
returned is resolved to success, and the tensor it carries is the tensor that
was allocated from `output_md`: its shape and its element type are those of
the descriptor. -/
theorem success_forwards_allocated_tensor (K : Kernel) (a b : DenseHostTensor)
    (fi : List DenseHostTensor) (attrs : OpAttrsRef) (md : TensorMetadata)
    (ctx : ExecutionContext) (w : HostState)
    (buf : HostBuffer) (ta tb : Bool) (fo : AggregateAttr) (s0 : AsyncState Chain)
    (evs : List (Nat × Option String))
    (hwf : w.WF)
    (halloc : ctx.host.allocator md = some buf)
    (hta : attrs.Get Bool "transpose_a" = some ta)
    (htb : attrs.Get Bool "transpose_b" = some tb)
    (hfo : attrs.Get AggregateAttr "fused_ops" = some fo)
    (hk : a.dtype.kind = DType.Kind.F32)
    (hK : K ⟨a, b, ⟨md, buf⟩, fi, ta, tb, fo, ctx⟩ = .ok s0)
    (hdone : (HostState.run evs (TfFusedMatMulOp K a b fi attrs md ctx w).2).chainState
      ⟨w.numChains⟩ = .concrete ⟨⟩) :
    (TfFusedMatMulOp K a b fi attrs md ctx w).1 = ⟨w.numResults⟩ ∧
    ∃ t : DenseHostTensor,
      (HostState.run evs (TfFusedMatMulOp K a b fi attrs md ctx w).2).resultState
        ⟨w.numResults⟩ = .concrete t ∧
      (DenseHostTensor.CreateUninitialized md ctx.host w).1 = some t ∧
      t.metadata = md ∧ t.shape = md.shape ∧ t.dtype = md.dtype := by
  have hl := op_handle_linked K a b fi attrs md ctx w buf ta tb fo s0 hwf halloc hta htb hfo
    hk hK evs
  refine ⟨?_, ⟨md, buf⟩, ?_, ?_, rfl, rfl, rfl⟩
  · rw [op_kernel_ok K a b fi attrs md ctx w buf ta tb fo s0 halloc hta htb hfo hk hK]
  · simp only [HostState.chainState] at hdone
    have hr := Linked_resolved _ _ _ _ hl (by rw [hdone]; simp)
    rw [hdone] at hr
    simpa [HostState.resultState, forwarded] using hr
  · exact (CreateUninitialized_some md ctx.host w ⟨md, buf⟩).mpr ⟨buf, halloc, rfl⟩

theorem success_forwards_allocated_tensor_witness :
    (HostState.run [(0, none)] (TfFusedMatMulOp pendingKernel tF32 tF32 [] goodAttrs f32md
      okCtx HostState.empty).2).chainState ⟨0⟩ = .concrete ⟨⟩ ∧
    (TfFusedMatMulOp pendingKernel tF32 tF32 [] goodAttrs f32md okCtx HostState.empty).1 =
      ⟨0⟩ ∧
    ∃ t : DenseHostTensor,
      (HostState.run [(0, none)] (TfFusedMatMulOp pendingKernel tF32 tF32 [] goodAttrs f32md
        okCtx HostState.empty).2).resultState ⟨0⟩ = .concrete t ∧
      (DenseHostTensor.CreateUninitialized f32md okCtx.host HostState.empty).1 = some t ∧
      t.metadata = f32md ∧ t.shape = f32md.shape ∧ t.dtype = f32md.dtype :=
  ⟨by decide,
    success_forwards_allocated_tensor pendingKernel tF32 tF32 [] goodAttrs f32md okCtx
      HostState.empty ⟨128, 24⟩ false true ⟨[]⟩ .unavailable [(0, none)] WF_empty
      (by decide) (by decide) (by decide) (by decide) (by decide) rfl (by decide)⟩

/-- C5: the kernel has returned a completion signal, and after some
completions (`evs1` followed by `evs2`) that signal is resolved to the error
`e`.  Then the handle is resolved to the same error `e`, and at no earlier time
(after `evs1`) was it resolved to success: the allocated output tensor is never
shown to the caller as a result. -/
theorem kernel_failure_reaches_handle (K : Kernel) (a b : DenseHostTensor)
    (fi : List DenseHostTensor) (attrs : OpAttrsRef) (md : TensorMetadata)
    (ctx : ExecutionContext) (w : HostState)
    (buf : HostBuffer) (ta tb : Bool) (fo : AggregateAttr) (s0 : AsyncState Chain)
    (evs1 evs2 : List (Nat × Option String)) (e : String)
    (hwf : w.WF)
    (halloc : ctx.host.allocator md = some buf)
    (hta : attrs.Get Bool "transpose_a" = some ta)
    (htb : attrs.Get Bool "transpose_b" = some tb)
    (hfo : attrs.Get AggregateAttr "fused_ops" = some fo)
    (hk : a.dtype.kind = DType.Kind.F32)
    (hK : K ⟨a, b, ⟨md, buf⟩, fi, ta, tb, fo, ctx⟩ = .ok s0)
    (herr : (HostState.run (evs1 ++ evs2)
      (TfFusedMatMulOp K a b fi attrs md ctx w).2).chainState ⟨w.numChains⟩ = .error e) :
    (TfFusedMatMulOp K a b fi attrs md ctx w).1 = ⟨w.numResults⟩ ∧
    (HostState.run (evs1 ++ evs2) (TfFusedMatMulOp K a b fi attrs md ctx w).2).resultState
      ⟨w.numResults⟩ = .error e ∧
    ∀ v : DenseHostTensor,
      (HostState.run evs1 (TfFusedMatMulOp K a b fi attrs md ctx w).2).resultState
        ⟨w.numResults⟩ ≠ .concrete v := by
  have hl12 := op_handle_linked K a b fi attrs md ctx w buf ta tb fo s0 hwf halloc hta htb
    hfo hk hK (evs1 ++ evs2)
  have hl1 := op_handle_linked K a b fi attrs md ctx w buf ta tb fo s0 hwf halloc hta htb
    hfo hk hK evs1
  simp only [HostState.chainState] at herr
  refine ⟨?_, ?_, ?_⟩
  · rw [op_kernel_ok K a b fi attrs md ctx w buf ta tb fo s0 halloc hta htb hfo hk hK]
  · have hr := Linked_resolved _ _ _ _ hl12 (by rw [herr]; simp)
    rw [herr] at hr
    simpa [HostState.resultState, forwarded] using hr
  · intro v hv
    simp only [HostState.resultState] at hv
    rw [run_append] at herr
    cases hc : ((HostState.run evs1 (TfFusedMatMulOp K a b fi attrs md ctx w).2).chains
        w.numChains).state with
    | unavailable =>
      rw [Linked_pending _ _ _ _ hl1 hc] at hv
      cases hv
    | concrete x =>
      rw [run_chain_stable evs2 _ w.numChains (by rw [hc]; simp), hc] at herr
      cases herr
    | error e1 =>
      have hr := Linked_resolved _ _ _ _ hl1 (by rw [hc]; simp)
      rw [hc, hv] at hr
      simp [forwarded] at hr

theorem kernel_failure_reaches_handle_witness :
    (HostState.run ([] ++ [(0, some "numeric fault")]) (TfFusedMatMulOp pendingKernel tF32 tF32
      [] goodAttrs f32md okCtx HostState.empty).2).chainState ⟨0⟩ = .error "numeric fault" ∧
    (HostState.run ([] ++ [(0, some "numeric fault")]) (TfFusedMatMulOp pendingKernel tF32
      tF32 [] goodAttrs f32md okCtx HostState.empty).2).resultState ⟨0⟩ =
        .error "numeric fault" :=
  ⟨by decide,
    (kernel_failure_reaches_handle pendingKernel tF32 tF32 [] goodAttrs f32md okCtx
      HostState.empty ⟨128, 24⟩ false true ⟨[]⟩ .unavailable [] [(0, some "numeric fault")]
      "numeric fault" WF_empty
      (by decide) (by decide) (by decide) (by decide) (by decide) rfl (by decide)).2.1⟩

/-! ## Errors of the dispatch -/

/-- The two ways the dispatch can return an error. -/
theorem dispatch_error_cases (K : Kernel) (a b out : DenseHostTensor)
    (fi : List DenseHostTensor) (ta tb : Bool) (fo : AggregateAttr) (ctx : ExecutionContext)
    (w0 : HostState) (err : String)
    (hd : (dispatch K a b out fi ta tb fo ctx w0).1 = .error err) :
    (a.dtype.kind ≠ DType.Kind.F32 ∧ err = "Unsupported dtype: " ++ a.dtype.name) ∨
    (a.dtype.kind = DType.Kind.F32 ∧ K ⟨a, b, out, fi, ta, tb, fo, ctx⟩ = .error err) := by
  by_cases hk : a.dtype.kind = DType.Kind.F32
  · right
    refine ⟨hk, ?_⟩
    rw [dispatch_F32 K a b out fi ta tb fo ctx w0 hk] at hd
    unfold invokeKernel at hd
    cases hK : K ⟨a, b, out, fi, ta, tb, fo, ctx⟩ with
    | error e1 =>
      rw [hK] at hd
      injection hd with hd
      rw [hd]
    | ok st =>
      rw [hK] at hd
      cases hd
  · left
    refine ⟨hk, ?_⟩
    rw [dispatch_unsupported K a b out fi ta tb fo ctx w0 hk] at hd
    simp only [MakeStringError] at hd
    injection hd with hd
    exact hd.symm

/-- C6: the allocation has succeeded, the attributes have been read, and the
dispatch returns the error `err` at once (the unsupported-dtype error, or an
error returned by the kernel).  Then the operation returns a handle that is
resolved with exactly `err` when the operation returns; no completion changes
it afterwards, so it never carries the allocated output tensor, and no
continuation is left waiting. -/
theorem dispatch_error_is_forwarded_unchanged (K : Kernel) (a b : DenseHostTensor)
    (fi : List DenseHostTensor) (attrs : OpAttrsRef) (md : TensorMetadata)
    (ctx : ExecutionContext) (w w0 : HostState)
    (buf : HostBuffer) (ta tb : Bool) (fo : AggregateAttr) (err : String)
    (halloc : ctx.host.allocator md = some buf)
    (hta : attrs.Get Bool "transpose_a" = some ta)
    (htb : attrs.Get Bool "transpose_b" = some tb)
    (hfo : attrs.Get AggregateAttr "fused_ops" = some fo)
    (hd : (dispatch K a b ⟨md, buf⟩ fi ta tb fo ctx w0).1 = .error err) :
    (TfFusedMatMulOp K a b fi attrs md ctx w).1 = ⟨w.numResults⟩ ∧
    (TfFusedMatMulOp K a b fi attrs md ctx w).2.resultState ⟨w.numResults⟩ = .error err ∧
    (TfFusedMatMulOp K a b fi attrs md ctx w).2.numChains = w.numChains ∧
    (∀ c, (TfFusedMatMulOp K a b fi attrs md ctx w).2.chains c = w.chains c) ∧
    ∀ evs : List (Nat × Option String),
      (HostState.run evs (TfFusedMatMulOp K a b fi attrs md ctx w).2).resultState
        ⟨w.numResults⟩ = .error err := by
  have key : (TfFusedMatMulOp K a b fi attrs md ctx w).1 = ⟨w.numResults⟩ ∧
      (TfFusedMatMulOp K a b fi attrs md ctx w).2.results w.numResults = .error err ∧
      (TfFusedMatMulOp K a b fi attrs md ctx w).2.numChains = w.numChains ∧
      (∀ c, (TfFusedMatMulOp K a b fi attrs md ctx w).2.chains c = w.chains c) := by
    rcases dispatch_error_cases K a b ⟨md, buf⟩ fi ta tb fo ctx w0 err hd with
      ⟨hk, herr⟩ | ⟨hk, hK⟩
    · rw [op_unsupported K a b fi attrs md ctx w buf halloc hk]
      refine ⟨rfl, ?_, rfl, fun _ => rfl⟩
      simp [setCell_same, MakeStringError, herr]
    · rw [op_kernel_error K a b fi attrs md ctx w buf ta tb fo err halloc hta htb hfo hk hK]
      refine ⟨rfl, ?_, rfl, fun _ => rfl⟩
      simp [setCell_same]
  obtain ⟨h1, h2, h3, h4⟩ := key
  refine ⟨h1, h2, h3, h4, ?_⟩
  intro evs
  simp only [HostState.resultState]
  rw [run_result_stable evs _ w.numResults (by rw [h2]; simp), h2]

theorem dispatch_error_is_forwarded_unchanged_witness :
    (dispatch failKernel tF32 tF32 ⟨f32md, ⟨128, 24⟩⟩ [] false true ⟨[]⟩ okCtx
      HostState.empty).1 = .error "shape mismatch" ∧
    (TfFusedMatMulOp failKernel tF32 tF32 [] goodAttrs f32md okCtx HostState.empty).1 =
      ⟨0⟩ ∧
    (TfFusedMatMulOp failKernel tF32 tF32 [] goodAttrs f32md okCtx HostState.empty).2.resultState
      ⟨0⟩ = .error "shape mismatch" :=
  ⟨rfl,
    (dispatch_error_is_forwarded_unchanged failKernel tF32 tF32 [] goodAttrs f32md okCtx
      HostState.empty HostState.empty ⟨128, 24⟩ false true ⟨[]⟩ "shape mismatch"
      (by decide) (by decide) (by decide) (by decide) rfl).1,
    (dispatch_error_is_forwarded_unchanged failKernel tF32 tF32 [] goodAttrs f32md okCtx
      HostState.empty HostState.empty ⟨128, 24⟩ false true ⟨[]⟩ "shape mismatch"
      (by decide) (by decide) (by decide) (by decide) rfl).2.1⟩

/-! ## Handle and completion signal in time -/

/-- The calls the operation has recorded once it has reached the dispatch with
an `F32` tensor `a`, the attributes being present. -/
theorem op_kernel_calls (K : Kernel) (a b : DenseHostTensor) (fi : List DenseHostTensor)
    (attrs : OpAttrsRef) (md : TensorMetadata) (ctx : ExecutionContext) (w : HostState)
    (buf : HostBuffer) (ta tb : Bool) (fo : AggregateAttr)
    (halloc : ctx.host.allocator md = some buf)
    (hta : attrs.Get Bool "transpose_a" = some ta)
    (htb : attrs.Get Bool "transpose_b" = some tb)
    (hfo : attrs.Get AggregateAttr "fused_ops" = some fo)
    (hk : a.dtype.kind = DType.Kind.F32) :
    (TfFusedMatMulOp K a b fi attrs md ctx w).2.kernelCalls =
      w.kernelCalls ++ [⟨a, b, ⟨md, buf⟩, fi, ta, tb, fo, ctx⟩] := by
  have e1 := asserted_of_some Bool attrs "transpose_a" ta hta
  have e2 := asserted_of_some Bool attrs "transpose_b" tb htb
  have e3 := asserted_of_some AggregateAttr attrs "fused_ops" fo hfo
  subst e1 e2 e3
  exact (op_traces_F32 K a b fi attrs md ctx w buf halloc hk).2.1

/-- C8: when `a` has the element type `F32` and the allocation succeeds, the
kernel is invoked exactly once, and its arguments are, in this order: `a`, `b`,
the tensor just allocated from `output_md`, the fusion inputs as received, the
value of the attribute `transpose_a`, the value of the attribute `transpose_b`
(not swapped), the value of the attribute `fused_ops`, and the execution
context.  Nothing that completes later calls the kernel again. -/
theorem kernel_called_once_with_arguments (K : Kernel) (a b : DenseHostTensor)
    (fi : List DenseHostTensor) (attrs : OpAttrsRef) (md : TensorMetadata)
    (ctx : ExecutionContext) (w : HostState)
    (out : DenseHostTensor) (ta tb : Bool) (fo : AggregateAttr)
    (halloc : (DenseHostTensor.CreateUninitialized md ctx.host w).1 = some out)
    (hta : attrs.Get Bool "transpose_a" = some ta)
    (htb : attrs.Get Bool "transpose_b" = some tb)
    (hfo : attrs.Get AggregateAttr "fused_ops" = some fo)
    (hk : a.dtype.kind = DType.Kind.F32) :
    (TfFusedMatMulOp K a b fi attrs md ctx w).2.kernelCalls =
      w.kernelCalls ++ [⟨a, b, out, fi, ta, tb, fo, ctx⟩] ∧
    ∀ evs : List (Nat × Option String),
      (HostState.run evs (TfFusedMatMulOp K a b fi attrs md ctx w).2).kernelCalls =
        w.kernelCalls ++ [⟨a, b, out, fi, ta, tb, fo, ctx⟩] := by
  obtain ⟨buf, hbuf, rfl⟩ := (CreateUninitialized_some md ctx.host w out).mp halloc
  have h := op_kernel_calls K a b fi attrs md ctx w buf ta tb fo hbuf hta htb hfo hk
  refine ⟨h, fun evs => ?_⟩
  rw [(run_trace evs _).2.2, h]

theorem kernel_called_once_with_arguments_witness :
    (TfFusedMatMulOp pendingKernel tF32 tI32 [tI32] goodAttrs f32md okCtx
      HostState.empty).2.kernelCalls =
      [] ++ [⟨tF32, tI32, ⟨f32md, ⟨128, 24⟩⟩, [tI32], false, true, ⟨[]⟩, okCtx⟩] :=
  (kernel_called_once_with_arguments pendingKernel tF32 tI32 [tI32] goodAttrs f32md okCtx
    HostState.empty ⟨f32md, ⟨128, 24⟩⟩ false true ⟨[]⟩
    (by decide) (by decide) (by decide) (by decide) (by decide)).1

/-! ## Registration -/

/-- The attributes an invocation reads, once the allocation has succeeded. -/
theorem op_attr_reads_all (K : Kernel) (a b : DenseHostTensor) (fi : List DenseHostTensor)
    (attrs : OpAttrsRef) (md : TensorMetadata) (ctx : ExecutionContext) (w : HostState)
    (buf : HostBuffer) (halloc : ctx.host.allocator md = some buf) :
    (TfFusedMatMulOp K a b fi attrs md ctx w).2.attrReads =
      w.attrReads ++ ["transpose_a", "transpose_b", "fused_ops"] := by
  by_cases hk : a.dtype.kind = DType.Kind.F32
  · exact (op_traces_F32 K a b fi attrs md ctx w buf halloc hk).2.2.1
  · exact (op_traces_unsupported K a b fi attrs md ctx w buf halloc hk).2.2.2.1

/-- The attributes the operation reads are the first ones of the registered
list, in the order of that list. -/
theorem op_attr_reads (K : Kernel) (a b : DenseHostTensor) (fi : List DenseHostTensor)
    (attrs : OpAttrsRef) (md : TensorMetadata) (ctx : ExecutionContext) (w : HostState) :
    ∃ k, (TfFusedMatMulOp K a b fi attrs md ctx w).2.attrReads =
      w.attrReads ++ ["transpose_a", "transpose_b", "fused_ops"].take k := by
  cases halloc : ctx.host.allocator md with
  | none =>
    refine ⟨0, ?_⟩
    rw [op_alloc_failed K a b fi attrs md ctx w halloc]
    simp
  | some buf =>
    refine ⟨3, ?_⟩
    rw [op_attr_reads_all K a b fi attrs md ctx w buf halloc]
    simp

/-- C9: `RegisterTfMatmulFusionCpuOps` adds exactly one entry to the registry, at
its end: the name "tf._FusedMatMul", bound to `TfFusedMatMulOp`, with the flag
`NoSideEffects` and the attribute names `transpose_a`, `transpose_b`,
`fused_ops`.  The operation reads no other attribute: what an invocation reads
is an initial part of that list, and an invocation that gets past the reading
of the attributes has read exactly that list. -/
theorem registration_entry (K : Kernel) (op_registry : CpuOpRegistry) (a b : DenseHostTensor)
    (fi : List DenseHostTensor) (attrs : OpAttrsRef) (md : TensorMetadata)
    (ctx : ExecutionContext) (w : HostState) :
    (RegisterTfMatmulFusionCpuOps K op_registry).entries =
      op_registry.entries ++
        [⟨"tf._FusedMatMul", TfFusedMatMulOp K, CpuOpFlags.NoSideEffects,
          ["transpose_a", "transpose_b", "fused_ops"]⟩] ∧
    (RegisterTfMatmulFusionCpuOps K op_registry).entries.length =
      op_registry.entries.length + 1 ∧
    (∃ k, (TfFusedMatMulOp K a b fi attrs md ctx w).2.attrReads =
      w.attrReads ++ ["transpose_a", "transpose_b", "fused_ops"].take k) ∧
    ∀ (buf : HostBuffer) (ta tb : Bool) (fo : AggregateAttr),
      ctx.host.allocator md = some buf →
      attrs.Get Bool "transpose_a" = some ta →
      attrs.Get Bool "transpose_b" = some tb →
      attrs.Get AggregateAttr "fused_ops" = some fo →
      (TfFusedMatMulOp K a b fi attrs md ctx w).2.attrReads =
        w.attrReads ++ ["transpose_a", "transpose_b", "fused_ops"] := by
  refine ⟨rfl, by simp [RegisterTfMatmulFusionCpuOps, CpuOpRegistry.AddOp],
    op_attr_reads K a b fi attrs md ctx w, ?_⟩
  intro buf ta tb fo halloc _ _ _
  exact op_attr_reads_all K a b fi attrs md ctx w buf halloc

/-! ## What the selection of the kernel depends on -/

/-- The state of the handle when `ForwardValue` returns it. -/
theorem ForwardValue_result_at_return (out : DenseHostTensor) (c : Nat) (host : HostContext)
    (w : HostState) :
    (ForwardValue out ⟨c⟩ host w).2.results w.numResults =
      (match (w.chains c).state with
       | .unavailable => .unavailable
       | st => forwarded st out) := by
  cases hs : (w.chains c).state with
  | unavailable =>
    simp [ForwardValue, MakeUnconstructedAsyncValueRef, AndThen, hs, setCell_same]
  | concrete v =>
    simp only [ForwardValue, MakeUnconstructedAsyncValueRef, AndThen, hs]
    have := closure_run_target (.concrete v) ⟨⟨w.numResults⟩, out⟩
      (setCell w.results w.numResults .unavailable) (setCell_same _ _ _)
    simpa [forwarded] using this
  | error e =>
    simp only [ForwardValue, MakeUnconstructedAsyncValueRef, AndThen, hs]
    have := closure_run_target (.error e) ⟨⟨w.numResults⟩, out⟩
      (setCell w.results w.numResults .unavailable) (setCell_same _ _ _)
    simpa [forwarded] using this

/-- The handle of an invocation with an `F32` tensor `a` holds, when it is
returned, what follows from the answer of the kernel. -/
theorem op_result_of_kernel (K : Kernel) (a b : DenseHostTensor) (fi : List DenseHostTensor)
    (attrs : OpAttrsRef) (md : TensorMetadata) (ctx : ExecutionContext) (w : HostState)
    (buf : HostBuffer)
    (halloc : ctx.host.allocator md = some buf)
    (hk : a.dtype.kind = DType.Kind.F32) :
    (TfFusedMatMulOp K a b fi attrs md ctx w).2.results w.numResults =
      (match K (opKernelArgs a b ⟨md, buf⟩ fi attrs ctx) with
       | .error err => .error err
       | .ok .unavailable => .unavailable
       | .ok st => forwarded st ⟨md, buf⟩) := by
  cases hK : K (opKernelArgs a b ⟨md, buf⟩ fi attrs ctx) with
  | error err =>
    rw [op_kernel_error_any K a b fi attrs md ctx w buf err halloc hk hK]
    simp [setCell_same]
  | ok s0 =>
    rw [op_kernel_ok_any K a b fi attrs md ctx w buf s0 halloc hk hK]
    have h := ForwardValue_result_at_return ⟨md, buf⟩ w.numChains ctx.host
      (afterKernel w md attrs (opKernelArgs a b ⟨md, buf⟩ fi attrs ctx) s0)
    have hn : (afterKernel w md attrs (opKernelArgs a b ⟨md, buf⟩ fi attrs ctx) s0).numResults
        = w.numResults := rfl
    have hc : ((afterKernel w md attrs (opKernelArgs a b ⟨md, buf⟩ fi attrs ctx) s0).chains
        w.numChains).state = s0 := by
      simp [afterKernel, setCell_same]
    rw [hn, hc] at h
    simp only [opKernelArgs] at h ⊢
    rw [h]
    cases s0 <;> rfl

/-- C10: which branch of the dispatch an invocation of `TfFusedMatMulOp` takes
depends only on the kind of the element type of `a`.  Two invocations that
agree on that kind and on whether the allocation succeeds behave alike,
whatever `b`, the fusion inputs and all other arguments are: either neither
reaches the dispatch (the allocation fails) and no kernel is called, or both
call the float kernel exactly once on their own `a`, `b` and fusion inputs, or
both call no kernel and return the unsupported-dtype error.  In particular,
when `a` is `F32` and `b` is not, the float kernel is called once, on this `b`,
and the handle holds what follows from the kernel's answer, not the
unsupported-dtype error of the dispatch. -/
theorem kernel_selection_depends_only_on_kind_of_a (K : Kernel)
    (a b : DenseHostTensor) (fi : List DenseHostTensor) (attrs : OpAttrsRef)
    (md : TensorMetadata) (ctx : ExecutionContext) (w : HostState)
    (a2 b2 : DenseHostTensor) (fi2 : List DenseHostTensor) (attrs2 : OpAttrsRef)
    (md2 : TensorMetadata) (ctx2 : ExecutionContext) (w2 : HostState)
    (hkind : a.dtype.kind = a2.dtype.kind)
    (hboth : (DenseHostTensor.CreateUninitialized md ctx.host w).1 = none ↔
      (DenseHostTensor.CreateUninitialized md2 ctx2.host w2).1 = none) :
    (((DenseHostTensor.CreateUninitialized md ctx.host w).1 = none ∧
        (TfFusedMatMulOp K a b fi attrs md ctx w).2.kernelCalls = w.kernelCalls ∧
        (TfFusedMatMulOp K a2 b2 fi2 attrs2 md2 ctx2 w2).2.kernelCalls = w2.kernelCalls) ∨
      ((DenseHostTensor.CreateUninitialized md ctx.host w).1 ≠ none ∧
        a.dtype.kind = DType.Kind.F32 ∧
        (∃ args, (TfFusedMatMulOp K a b fi attrs md ctx w).2.kernelCalls =
            w.kernelCalls ++ [args] ∧
          args.a = a ∧ args.b = b ∧ args.fusion_inputs = fi) ∧
        (∃ args2, (TfFusedMatMulOp K a2 b2 fi2 attrs2 md2 ctx2 w2).2.kernelCalls =
            w2.kernelCalls ++ [args2] ∧
          args2.a = a2 ∧ args2.b = b2 ∧ args2.fusion_inputs = fi2)) ∨
      ((DenseHostTensor.CreateUninitialized md ctx.host w).1 ≠ none ∧
        a.dtype.kind ≠ DType.Kind.F32 ∧
        (TfFusedMatMulOp K a b fi attrs md ctx w).2.kernelCalls = w.kernelCalls ∧
        (TfFusedMatMulOp K a b fi attrs md ctx w).2.resultState
          (TfFusedMatMulOp K a b fi attrs md ctx w).1 =
            .error ("Unsupported dtype: " ++ a.dtype.name) ∧
        (TfFusedMatMulOp K a2 b2 fi2 attrs2 md2 ctx2 w2).2.kernelCalls = w2.kernelCalls ∧
        (TfFusedMatMulOp K a2 b2 fi2 attrs2 md2 ctx2 w2).2.resultState
          (TfFusedMatMulOp K a2 b2 fi2 attrs2 md2 ctx2 w2).1 =
            .error ("Unsupported dtype: " ++ a2.dtype.name))) ∧
    (a.dtype.kind = DType.Kind.F32 → b.dtype.kind ≠ DType.Kind.F32 →
      ∀ buf, ctx.host.allocator md = some buf →
        (TfFusedMatMulOp K a b fi attrs md ctx w).2.kernelCalls =
          w.kernelCalls ++ [opKernelArgs a b ⟨md, buf⟩ fi attrs ctx] ∧
        (opKernelArgs a b ⟨md, buf⟩ fi attrs ctx).b = b ∧
        (TfFusedMatMulOp K a b fi attrs md ctx w).2.resultState
          (TfFusedMatMulOp K a b fi attrs md ctx w).1 =
          (match K (opKernelArgs a b ⟨md, buf⟩ fi attrs ctx) with
           | .error err => .error err
           | .ok .unavailable => .unavailable
           | .ok st => forwarded st ⟨md, buf⟩)) := by
  constructor
  · cases halloc : ctx.host.allocator md with
    | none =>
      have h1 := (CreateUninitialized_none md ctx.host w).mpr halloc
      have halloc2 := (CreateUninitialized_none md2 ctx2.host w2).mp (hboth.mp h1)
      left
      rw [op_alloc_failed K a b fi attrs md ctx w halloc,
        op_alloc_failed K a2 b2 fi2 attrs2 md2 ctx2 w2 halloc2]
      exact ⟨h1, rfl, rfl⟩
    | some buf =>
      have h1 : (DenseHostTensor.CreateUninitialized md ctx.host w).1 ≠ none := by
        intro h
        rw [(CreateUninitialized_none md ctx.host w).mp h] at halloc
        cases halloc
      cases halloc2 : ctx2.host.allocator md2 with
      | none =>
        exact absurd (hboth.mpr ((CreateUninitialized_none md2 ctx2.host w2).mpr halloc2)) h1
      | some buf2 =>
        right
        by_cases hk : a.dtype.kind = DType.Kind.F32
        · left
          have hk2 : a2.dtype.kind = DType.Kind.F32 := by rw [← hkind]; exact hk
          exact ⟨h1, hk,
            ⟨_, (op_traces_F32 K a b fi attrs md ctx w buf halloc hk).2.1, rfl, rfl, rfl⟩,
            ⟨_, (op_traces_F32 K a2 b2 fi2 attrs2 md2 ctx2 w2 buf2 halloc2 hk2).2.1,
              rfl, rfl, rfl⟩⟩
        · right
          have hk2 : a2.dtype.kind ≠ DType.Kind.F32 := by rw [← hkind]; exact hk
          obtain ⟨e1, e2, e3, -, -, -⟩ :=
            op_traces_unsupported K a b fi attrs md ctx w buf halloc hk
          obtain ⟨g1, g2, g3, -, -, -⟩ :=
            op_traces_unsupported K a2 b2 fi2 attrs2 md2 ctx2 w2 buf2 halloc2 hk2
          refine ⟨h1, hk, e3, ?_, g3, ?_⟩
          · rw [e1]; exact e2
          · rw [g1]; exact g2
  · intro hk _ buf halloc
    obtain ⟨e1, e2, -, -, -⟩ := op_traces_F32 K a b fi attrs md ctx w buf halloc hk
    refine ⟨e2, rfl, ?_⟩
    rw [e1]
    exact op_result_of_kernel K a b fi attrs md ctx w buf halloc hk

theorem kernel_selection_depends_only_on_kind_of_a_witness :
    tF32.dtype.kind = tF32.dtype.kind ∧
    (TfFusedMatMulOp pendingKernel tF32 tI32 [tI32] goodAttrs f32md okCtx
      HostState.empty).2.kernelCalls =
      [] ++ [opKernelArgs tF32 tI32 ⟨f32md, ⟨128, 24⟩⟩ [tI32] goodAttrs okCtx] ∧
    (TfFusedMatMulOp pendingKernel tF32 tI32 [tI32] goodAttrs f32md okCtx
      HostState.empty).2.resultState
      (TfFusedMatMulOp pendingKernel tF32 tI32 [tI32] goodAttrs f32md okCtx
        HostState.empty).1 = .unavailable :=
  ⟨rfl,
    ((kernel_selection_depends_only_on_kind_of_a pendingKernel
      tF32 tI32 [tI32] goodAttrs f32md okCtx HostState.empty
      tF32 tF32 [] noAttrs f32md okCtx HostState.empty rfl Iff.rfl).2
      (by decide) (by decide) ⟨128, 24⟩ (by decide)).1,
    ((kernel_selection_depends_only_on_kind_of_a pendingKernel
      tF32 tI32 [tI32] goodAttrs f32md okCtx HostState.empty
      tF32 tF32 [] noAttrs f32md okCtx HostState.empty rfl Iff.rfl).2
      (by decide) (by decide) ⟨128, 24⟩ (by decide)).2.2⟩

end tfrt
